/-
Verification of the tap-airtable extractor (`tap_airtable/services/__init__.py`)
against its natural-language specification.

The development shallowly embeds the parts of the code the claims are about:

* Python dictionaries whose keys are strings are modelled as association
  lists (`List (String × α)`) with Python assignment semantics (`dictSet`
  overwrites in place) and `.get` semantics (`dictGet`).
* JSON values (the raw Airtable field values) are the mutual inductives
  `JValue` / `JArray` / `JObject`.  Python floats are carried as their
  `repr` text, which is also what both `str` and `json.dumps` print for
  them.  `dumps` models `json.dumps` with its default separators
  (", " between items, ": " after keys) and `ensure_ascii=True` escaping.
* Fallible Python code (subscription that can raise `KeyError` or
  `IndexError`) is embedded into `Option`: `none` is an uncaught exception.
-/
import Mathlib

namespace TapAirtable

/-! ### Association lists with Python dict semantics -/

/-- `d.get(k)` on a string-keyed Python dict. -/
def dictGet {α : Type} (k : String) : List (String × α) → Option α
  | [] => none
  | (k2, v) :: rest => if k2 = k then some v else dictGet k rest

/-- `d[k] = v` on a string-keyed Python dict: overwrite in place, append
if absent. -/
def dictSet {α : Type} (k : String) (v : α) : List (String × α) → List (String × α)
  | [] => [(k, v)]
  | (k2, v2) :: rest => if k2 = k then (k, v) :: rest else (k2, v2) :: dictSet k v rest

@[simp]
theorem dictGet_nil {α : Type} (k : String) : dictGet (α := α) k [] = none := rfl

@[simp]
theorem dictGet_cons {α : Type} (k k2 : String) (v : α) (rest : List (String × α)) :
    dictGet k ((k2, v) :: rest) = if k2 = k then some v else dictGet k rest := rfl

@[simp]
theorem dictGet_dictSet {α : Type} (k k2 : String) (v : α) (l : List (String × α)) :
    dictGet k (dictSet k2 v l) = if k2 = k then some v else dictGet k l := by
  induction l with
  | nil => simp [dictSet]
  | cons hd tl ih =>
    obtain ⟨k3, v3⟩ := hd
    by_cases h3 : k3 = k2
    · subst h3
      by_cases h : k3 = k <;> simp [dictSet, h]
    · by_cases h : k3 = k
      · subst h
        have h5 : ¬k2 = k3 := fun h => h3 h.symm
        simp [dictSet, h3, h5]
      · simp [dictSet, h3, h, ih]

/-! ### JSON values and `json.dumps`

`JValue` models the values Python's `json` module produces: `null`, bools,
ints, floats (carried as their `repr` text), strings, arrays and objects.
Arrays and objects are separate inductives so that `dumps` is structurally
recursive and computes by `rfl`. -/

mutual

inductive JValue : Type where
  | null : JValue
  | bool (b : Bool) : JValue
  | int (n : Int) : JValue
  | float (r : String) : JValue
  | str (s : String) : JValue
  | arr (xs : JArray) : JValue
  | obj (kvs : JObject) : JValue

inductive JArray : Type where
  | nil : JArray
  | cons (v : JValue) (rest : JArray) : JArray

inductive JObject : Type where
  | nil : JObject
  | cons (k : String) (v : JValue) (rest : JObject) : JObject

end

/-- `type(val) is str` in Python. -/
def JValue.isStr : JValue → Bool
  | .str _ => true
  | _ => false

/-- `val is None` in Python (a JSON `null` parses to `None`). -/
def JValue.isNull : JValue → Bool
  | .null => true
  | _ => false

/-- One hexadecimal digit, lower case, as `json.dumps` prints them. -/
def hexDigit (n : Nat) : Char :=
  if n < 10 then Char.ofNat (48 + n) else Char.ofNat (97 + (n - 10))

/-- Four hex digits, as in a `\uXXXX` escape. -/
def hex4 (n : Nat) : String :=
  String.mk [hexDigit (n / 4096 % 16), hexDigit (n / 256 % 16),
             hexDigit (n / 16 % 16), hexDigit (n % 16)]

/-- `json.dumps` escaping of one character with `ensure_ascii=True`:
characters outside the printable ASCII range `0x20`–`0x7e` are escaped,
astral code points as a surrogate pair. -/
def escapeChar (c : Char) : String :=
  if c = '"' then "\\\""
  else if c = '\\' then "\\\\"
  else if c = '\n' then "\\n"
  else if c = '\t' then "\\t"
  else if c = '\r' then "\\r"
  else if c.toNat = 8 then "\\b"
  else if c.toNat = 12 then "\\f"
  else if c.toNat < 32 ∨ 126 < c.toNat then
    if c.toNat < 65536 then "\\u" ++ hex4 c.toNat
    else
      let m := c.toNat - 65536
      "\\u" ++ hex4 (55296 + m / 1024) ++ "\\u" ++ hex4 (56320 + m % 1024)
  else String.singleton c

/-- The body of a JSON string literal for `s`. -/
def escapeJson (s : String) : String :=
  String.join (s.data.map escapeChar)

mutual

/-- `json.dumps(val)` with the default arguments: separators `", "` and
`": "`, `ensure_ascii=True`. -/
def dumps : JValue → String
  | .null => "null"
  | .bool true => "true"
  | .bool false => "false"
  | .int n => toString n
  | .float r => r
  | .str s => "\"" ++ escapeJson s ++ "\""
  | .arr xs => "[" ++ dumpsArr xs ++ "]"
  | .obj kvs => "\x7b" ++ dumpsObj kvs ++ "\x7d"

/-- Array items joined by the default item separator `", "`. -/
def dumpsArr : JArray → String
  | .nil => ""
  | .cons v .nil => dumps v
  | .cons v (.cons w rest) => dumps v ++ ", " ++ dumpsArr (.cons w rest)

/-- Object entries `"key": value` joined by `", "`. -/
def dumpsObj : JObject → String
  | .nil => ""
  | .cons k v .nil => "\"" ++ escapeJson k ++ "\": " ++ dumps v
  | .cons k v (.cons k2 w rest) =>
      "\"" ++ escapeJson k ++ "\": " ++ dumps v ++ ", " ++ dumpsObj (.cons k2 w rest)

end

/-! ### `Airtable.cast_type` -/

/-- `Airtable.cast_type(val, requested_type)`:

```python
col_type = type(val)
if requested_type == "string" and col_type is not str:
    if col_type is float or col_type is int:
        return str(val)
    return json.dumps(val)
return val
```

`str` of a Python float is its `repr`, which the `JValue.float`
constructor carries; `str` of an int is its decimal form. -/
def castType (val : JValue) (requested_type : String) : JValue :=
  if requested_type = "string" ∧ val.isStr = false then
    match val with
    | .float r => .str r
    | .int n => .str (toString n)
    | v => .str (dumps v)
  else val

/-! ### Field metadata and `Airtable.column_schema` -/

/-- The part of a raw Airtable field `config` dict the code reads.
`type` is `none` when the `"type"` key is absent, `some none` when the
key is present with value `null`, and `some (some s)` for a string tag. -/
structure FieldConfig : Type where
  type : Option (Option String)
deriving DecidableEq

/-- A raw Airtable field definition `{name, config?}` as fetched from
the metadata endpoint; `config` is `none` when the `"config"` key is
absent. -/
structure FieldDef : Type where
  name : String
  config : Option FieldConfig
deriving DecidableEq

/-- A singer `Schema` object, restricted to the attributes this code
sets: `type` (a list like `['null', 'string']`), `format` and
`inclusion`. -/
structure SchemaCol : Type where
  type : List String
  format : Option String
  inclusion : Option String
deriving DecidableEq

/-- `Airtable.column_schema(col_info)`: the fixed lookup from the
Airtable type tag to the declared singer schema.  `air_type` starts as
the string `"string"` and is replaced by `col_info["config"]["type"]`
(which may be `null`) when both keys exist. -/
def column_schema (col_info : FieldDef) : SchemaCol :=
  let air_type : Option String :=
    match col_info.config with
    | some cfg =>
      match cfg.type with
      | some v => v
      | none => some "string"
    | none => some "string"
  let singer_type : String :=
    if air_type = some "number" ∨ air_type = some "autoNumber" then "number" else "string"
  let fmt1 : Option String := if air_type = some "dateTime" then some "date-time" else none
  let fmt2 : Option String := if air_type = some "date" then some "date" else fmt1
  ⟨["null", singer_type], fmt2, none⟩

/-- The source-type-tag of a field: the value of `config["type"]` when
both keys are present, collapsing an explicit `null` value and a missing
key to `none`. -/
def sourceTypeTag (f : FieldDef) : Option String :=
  match f.config with
  | some cfg =>
    match cfg.type with
    | some v => v
    | none => none
  | none => none

/-- Modelled from the spec's words, for comparison with `column_schema`:
"source-type-tag ∈ \x7bnumber-like tags\x7d → declared type `number`;
source-type-tag ∈ \x7bdate-time tag\x7d → declared type `string` with format
`date-time`; source-type-tag ∈ \x7bdate tag\x7d → declared type `string` with
format `date`; anything else (including absent tag) → declared type
`string`, no format."  Returns (declared type, format). -/
def declaredTypeSpec (tag : Option String) : String × Option String :=
  match tag with
  | some t =>
    if t = "number" ∨ t = "autoNumber" then ("number", none)
    else if t = "dateTime" then ("string", some "date-time")
    else if t = "date" then ("string", some "date")
    else ("string", none)
  | none => ("string", none)

/-! ### `Airtable.discover_base`: output column names and per-field work -/

/-- Lines 107–110 of `discover_base`:

```python
airtable_field = field["name"]
field_name = airtable_field
if airtable_field[0].isdigit():
    field_name = "c_" + airtable_field
```

`airtable_field[0]` raises `IndexError` on an empty name, embedded as
`none`. -/
def deriveFieldName (airtable_field : String) : Option String :=
  match airtable_field.data with
  | [] => none
  | c :: _ => some (if c.isDigit then "c_" ++ airtable_field else airtable_field)

/-- `Airtable.pk_types`. -/
def pk_types : List String := ["autoNumber"]

/-- The per-column singer metadata `discover_base` records for one field:
whether an explicit `inclusion: available` was written (the
"primary-key-like" marking), the `airtable_type` value (`none` is the
literal JSON `null`), and the `airtable_field` value. -/
structure ColMeta : Type where
  pkAvailable : Bool
  airtableType : Option String
  airtableField : String
deriving DecidableEq

/-- The body of the `for field in table["fields"]` loop of
`discover_base` for one field: derive the output column name, build the
column schema, and record the metadata writes.  `none` embeds an
uncaught exception: `IndexError` on an empty field name, or `KeyError`
from `field["config"]["type"]` (line 122–123, unguarded) when `config`
or its `"type"` key is absent.  `field["config"]["type"] or None`
collapses a falsy tag (`null` or the empty string) to `None`. -/
def processField (f : FieldDef) : Option (String × SchemaCol × ColMeta) :=
  match deriveFieldName f.name with
  | none => none
  | some field_name =>
    let col_schema := column_schema f
    let pkAvail : Bool :=
      match f.config with
      | some cfg =>
        match cfg.type with
        | some (some t) => pk_types.contains t
        | some none => false
        | none => false
      | none => false
    match f.config with
    | none => none
    | some cfg =>
      match cfg.type with
      | none => none
      | some v =>
        let annType : Option String :=
          match v with
          | none => none
          | some s => if s = "" then none else some s
        some (field_name, col_schema, ⟨pkAvail, annType, f.name⟩)

/-- The schema entry `discover_base` always seeds:
`Schema(inclusion="automatic", type=['null', "string"])`. -/
def idSchema : SchemaCol := ⟨["null", "string"], none, some "automatic"⟩

/-- The `schema_cols` dict after the field loop of `discover_base`,
starting from the accumulator `acc` (the real call starts from
`[("id", idSchema)]`). -/
def buildSchemaCols : List FieldDef → List (String × SchemaCol) → Option (List (String × SchemaCol))
  | [], acc => some acc
  | f :: rest, acc =>
    match processField f with
    | none => none
    | some (field_name, col_schema, _) => buildSchemaCols rest (dictSet field_name col_schema acc)

/-- The full `schema_cols` of one table. -/
def discoverTableSchema (fields : List FieldDef) : Option (List (String × SchemaCol)) :=
  buildSchemaCols fields [("id", idSchema)]

/-! ### Catalog metadata entries and the Selection Resolver -/

/-- One entry of a stream's `metadata` list, restricted to the keys the
code reads: the `breadcrumb` (a list of strings, `('properties', col)`
in a well-formed catalog) and, inside the inner `metadata` dict, the
optional `selected` flag and the optional `airtable_field` string. -/
structure MetaEntry : Type where
  breadcrumb : List String
  selected : Option Bool
  airtableField : Option String
deriving DecidableEq

/-- `Airtable._find_column(col, meta_data)`: scan for the first entry
whose breadcrumb contains `"properties"` and whose `breadcrumb[1]`
equals `col`; return its `airtable_field` (or Python `None`, the inner
`none`) and stop.  Falling off the loop returns `None`.  The outer
`none` embeds the `IndexError` raised by `m["breadcrumb"][1]` when the
breadcrumb is shorter than two entries. -/
def findColumn (col : String) : List MetaEntry → Option (Option String)
  | [] => some none
  | m :: rest =>
    if "properties" ∈ m.breadcrumb then
      match m.breadcrumb.get? 1 with
      | none => none
      | some c =>
        if c = col then some m.airtableField else findColumn col rest
    else findColumn col rest

/-- Python's `x or d` for an optional string `x`: the empty string and
`None` are falsy. -/
def pyOr (x : Option String) (d : String) : String :=
  match x with
  | some s => if s = "" then d else s
  | none => d

/-- The loop of `Airtable._find_selected_columns`:

```python
for m in schema["metadata"]:
    if "properties" not in m["breadcrumb"]:
        continue
    if "selected" in m["metadata"] and m["metadata"]["selected"] \
            and "airtable_field" in m["metadata"]:
        column_name = m["breadcrumb"][1]
        airtable_field = m["metadata"]["airtable_field"]
        selected_cols[column_name] = schema["schema"]["properties"][column_name]
        airtable_fields.append(airtable_field)
```

`props` is `schema["schema"]["properties"]`; `acc` is the pair
`(selected_cols, airtable_fields)` built so far.  The `none` results
embed the `IndexError` from `breadcrumb[1]` and the `KeyError` from
indexing `props`. -/
def findSelAux (props : List (String × SchemaCol)) :
    List MetaEntry → List (String × SchemaCol) × List String →
    Option (List (String × SchemaCol) × List String)
  | [], acc => some acc
  | m :: rest, acc =>
    if "properties" ∈ m.breadcrumb then
      if m.selected = some true then
        match m.airtableField with
        | some f =>
          match m.breadcrumb.get? 1 with
          | none => none
          | some column_name =>
            match dictGet column_name props with
            | none => none
            | some sch => findSelAux props rest (dictSet column_name sch acc.1, acc.2 ++ [f])
        | none => findSelAux props rest acc
      else findSelAux props rest acc
    else findSelAux props rest acc

/-- `Airtable._find_selected_columns(schema)`. -/
def findSelectedColumns (props : List (String × SchemaCol)) (md : List MetaEntry) :
    Option (List (String × SchemaCol) × List String) :=
  findSelAux props md ([], [])

/-- An entry that passes the inclusion test of
`_find_selected_columns` (breadcrumb mentions `"properties"`, `selected`
present and truthy, `airtable_field` present). -/
def selCandidate (m : MetaEntry) : Prop :=
  "properties" ∈ m.breadcrumb ∧ m.selected = some true ∧ m.airtableField.isSome

/-- An entry that causes `col` to be written to `selected_cols`. -/
def selCand (m : MetaEntry) (col : String) : Prop :=
  selCandidate m ∧ m.breadcrumb.get? 1 = some col

/-! ### `Airtable._map_records` -/

/-- One raw Airtable record: `{"id": ..., "fields": {...}}`.  A field
stored with an explicit JSON `null` and a missing key are
indistinguishable through `r["fields"].get(...)`, so both appear as a
lookup result that `dictGet`-defaults to `JValue.null`. -/
structure RawRecord : Type where
  id : String
  fields : List (String × JValue)

/-- The value `_map_records` computes for one schema column `col`:

```python
col_name = cls._find_column(col, metadata) or col
val = r["fields"].get(col_name)
if val is not None:
    val = cls.cast_type(val, requested_type)
row[col] = val
```

The outer `none` is the exception escaping `_find_column`. -/
def mapColumnValue (md : List MetaEntry) (r : RawRecord) (col : String)
    (requested_type : String) : Option JValue :=
  (findColumn col md).map fun fc =>
    let col_name := pyOr fc col
    let val := (dictGet col_name r.fields).getD JValue.null
    if val.isNull then val else castType val requested_type

/-- The `for col in schema` loop of `_map_records`, building the `row`
dict from the accumulator `acc`.  `requested_type = col_def["type"][1]`
raises `IndexError` (the `none` branch) when the declared type list has
fewer than two entries. -/
def mapRowAux (md : List MetaEntry) (r : RawRecord) :
    List (String × SchemaCol) → List (String × JValue) → Option (List (String × JValue))
  | [], acc => some acc
  | (col, col_def) :: rest, acc =>
    match col_def.type.get? 1 with
    | none => none
    | some requested_type =>
      match mapColumnValue md r col requested_type with
      | none => none
      | some val => mapRowAux md r rest (dictSet col val acc)

/-- The full per-record body of `_map_records`: run the column loop over
the declared schema, then `row["id"] = r["id"]`. -/
def mapRow (schema : List (String × SchemaCol)) (md : List MetaEntry) (r : RawRecord) :
    Option (List (String × JValue)) :=
  (mapRowAux md r schema []).map fun row => dictSet "id" (JValue.str r.id) row

/-- `Airtable._map_records(stream, records)`. -/
def mapRecords (schema : List (String × SchemaCol)) (md : List MetaEntry)
    (records : List RawRecord) : Option (List (List (String × JValue))) :=
  records.mapM (mapRow schema md)

/-! ### The pagination loop of `Airtable.run_sync`

The loop is embedded with explicit fuel because, as proved below, it
need not terminate.  `resp n` is the response to the `n`-th HTTP request
(the request made with `counter = n`); a response is a page of records
plus an optional `offset` continuation token.  `emitted` collects the
batches passed to `singer.write_records`, and `requests` counts the
calls to `Airtable.get_response`. -/

/-- One response page: `records` and the optional `offset` token. -/
structure Page : Type where
  records : List RawRecord
  offset : Option String

/-- What one stream's sync produced: whether the loop exited (`finished`),
the record batches written, and how many requests were issued.  With
`finished = false` the fuel ran out with the loop still running. -/
structure SyncResult : Type where
  finished : Bool
  emitted : List (List RawRecord)
  requests : Nat

/-- Python truthiness of the `offset` value (`None` and `""` are falsy). -/
def pyTruthyStr : Option String → Bool
  | none => false
  | some s => decide (s ≠ "")

/-- The `while offset:` loop of `run_sync`.  Note that when a page's
`records` is falsy nothing is written and — crucially — `offset` is not
reassigned, so the next iteration re-requests the same token. -/
def syncWhile (resp : Nat → Page) :
    Nat → Nat → Option String → List (List RawRecord) → Nat → SyncResult
  | 0, _, _, emitted, reqs => ⟨false, emitted, reqs⟩
  | fuel + 1, counter, offset, emitted, reqs =>
    if pyTruthyStr offset then
      let counter2 := counter + 1
      let page := resp counter2
      if page.records.isEmpty then
        syncWhile resp fuel counter2 offset emitted (reqs + 1)
      else
        syncWhile resp fuel counter2 page.offset (emitted ++ [page.records]) (reqs + 1)
    else ⟨true, emitted, reqs⟩

/-- The per-stream body of `run_sync`: request page `0`; if its
`records` is falsy the stream is done (nothing emitted, no schema
written); otherwise register the schema, write the first batch and run
the `while offset:` loop from the first page's token. -/
def runSyncStream (resp : Nat → Page) (fuel : Nat) : SyncResult :=
  let page := resp 0
  if page.records.isEmpty then ⟨true, [], 1⟩
  else syncWhile resp fuel 0 page.offset [page.records] 1

/-- The stream's pagination loop halts on some fuel budget. -/
def SyncTerminates (resp : Nat → Page) : Prop :=
  ∃ fuel, (runSyncStream resp fuel).finished = true

/-! ### Claim C1: the declared-type lookup -/

/-- Claim C1: for every field definition, the declared column type
produced by the Catalog Builder follows the fixed lookup: a
source-type-tag in \x7bnumber, autoNumber\x7d yields declared type `number`;
tag `dateTime` yields `string` with format `date-time`; tag `date`
yields `string` with format `date`; any other tag, or a missing tag,
yields `string` with no format.  Stated as: `column_schema` agrees with
the spec-side lookup `declaredTypeSpec` on every field. -/
theorem c1_column_type_lookup (f : FieldDef) :
    (column_schema f).type = ["null", (declaredTypeSpec (sourceTypeTag f)).1]
    ∧ (column_schema f).format = (declaredTypeSpec (sourceTypeTag f)).2 := by
  obtain ⟨name, config⟩ := f
  cases config with
  | none => simp [column_schema, sourceTypeTag, declaredTypeSpec]
  | some cfg =>
    obtain ⟨t⟩ := cfg
    cases t with
    | none => simp [column_schema, sourceTypeTag, declaredTypeSpec]
    | some v =>
      cases v with
      | none => simp [column_schema, sourceTypeTag, declaredTypeSpec]
      | some s =>
        by_cases h1 : s = "number"
        · subst h1; simp [column_schema, sourceTypeTag, declaredTypeSpec]
        · by_cases h2 : s = "autoNumber"
          · subst h2; simp [column_schema, sourceTypeTag, declaredTypeSpec]
          · by_cases h3 : s = "dateTime"
            · subst h3; simp [column_schema, sourceTypeTag, declaredTypeSpec]
            · by_cases h4 : s = "date"
              · subst h4; simp [column_schema, sourceTypeTag, declaredTypeSpec]
              · simp [column_schema, sourceTypeTag, declaredTypeSpec, h1, h2, h3, h4]

/-- Witness for C1 at the tag `number`. -/
theorem c1_column_type_lookup_witness :
    (column_schema ⟨"Amount", some ⟨some (some "number")⟩⟩).type
      = ["null", (declaredTypeSpec (sourceTypeTag ⟨"Amount", some ⟨some (some "number")⟩⟩)).1] :=
  (c1_column_type_lookup ⟨"Amount", some ⟨some (some "number")⟩⟩).1

/-! ### Claim C2: the digit-prefix naming rule -/

/-- Claim C2: for every field whose (non-empty) source name starts with
a digit, the derived output column name is the literal `c_` prefix
followed by the original name; for every field whose source name does
not start with a digit, the derived name is the source name unchanged. -/
theorem c2_name_rule (s : String) (c : Char) (cs : List Char) (h : s.data = c :: cs) :
    (c.isDigit = true → deriveFieldName s = some ("c_" ++ s))
    ∧ (c.isDigit = false → deriveFieldName s = some s) := by
  constructor <;> intro hd <;> simp [deriveFieldName, h, hd]

/-- Witness for C2 at the names `1Code` and `Amount`. -/
theorem c2_name_rule_witness :
    deriveFieldName "1Code" = some "c_1Code" ∧ deriveFieldName "Amount" = some "Amount" :=
  ⟨(c2_name_rule "1Code" '1' ['C', 'o', 'd', 'e'] rfl).1 (by decide),
   (c2_name_rule "Amount" 'A' ['m', 'o', 'u', 'n', 't'] rfl).2 (by decide)⟩

/-! ### Claim C4 (corrected): `cast_type` coercion to string -/

/-- Counterexample to claim C4 as stated: casting the array `[1, 2]` to
declared type `string` yields the text `"[1, 2]"` — `json.dumps` writes
its default item separator `", "` with a space — not the exact text
`"[1,2]"` the claim asserts. -/
theorem c4_cast_counterexample :
    castType (.arr (.cons (.int 1) (.cons (.int 2) .nil))) "string" = JValue.str "[1, 2]"
    ∧ "[1, 2]" ≠ "[1,2]" :=
  ⟨rfl, by decide⟩

/-- Claim C4 as amended: coercing to declared type `string` turns an int
or float into its decimal text, and a boolean, array or object into its
`json.dumps` text with the default separators (so `[1,2]` becomes
`"[1, 2]"`, with a space); a value already of text type, or any value
under a non-string declared type, passes through unchanged. -/
theorem c4_cast_type (v : JValue) (t : String) :
    (v.isStr = true → castType v t = v)
    ∧ (t ≠ "string" → castType v t = v)
    ∧ (∀ n : Int, v = .int n → castType v "string" = .str (toString n))
    ∧ (∀ r : String, v = .float r → castType v "string" = .str r)
    ∧ (∀ b : Bool, v = .bool b → castType v "string" = .str (dumps (JValue.bool b)))
    ∧ (∀ xs : JArray, v = .arr xs → castType v "string" = .str (dumps (JValue.arr xs)))
    ∧ (∀ kvs : JObject, v = .obj kvs → castType v "string" = .str (dumps (JValue.obj kvs)))
    ∧ castType (.int 42) "string" = .str "42"
    ∧ castType (.float "3.14") "string" = .str "3.14"
    ∧ castType (.bool true) "string" = .str "true"
    ∧ castType (.arr (.cons (.int 1) (.cons (.int 2) .nil))) "string" = .str "[1, 2]" := by
  refine ⟨?_, ?_, ?_, ?_, ?_, ?_, ?_, rfl, rfl, rfl, rfl⟩
  · intro h; simp [castType, h]
  · intro h; simp [castType, h]
  · rintro n rfl; rfl
  · rintro r rfl; rfl
  · rintro b rfl; cases b <;> rfl
  · rintro xs rfl; rfl
  · rintro kvs rfl; rfl

/-- Witness for C4 (amended): pass-through of a text value under a
numeric declared type, and the int coercion. -/
theorem c4_cast_type_witness :
    castType (.str "AB") "number" = JValue.str "AB"
    ∧ castType (.int (-7)) "string" = JValue.str "-7" :=
  ⟨(c4_cast_type (.str "AB") "number").1 rfl,
   (c4_cast_type (.int (-7)) "string").2.2.1 (-7) rfl⟩

/-! ### Claim C9 (code bug): fields whose config lacks a type tag -/

/-- Claim C9 evaluated on the code: for a field whose `config` dict has
no `"type"` key, the per-field discovery body raises (`KeyError` from
the unguarded `field["config"]["type"]` on line 122–123) instead of
recording the annotation as `null` — while a field whose `"type"` key is
present with value `null` does get its annotation recorded as the
literal `null` and completes, which is what the claim (and the guarded
accesses elsewhere in `discover_base`) expect for every missing tag. -/
theorem c9_missing_type_tag :
    processField ⟨"x", some ⟨none⟩⟩ = none
    ∧ processField ⟨"x", some ⟨some none⟩⟩
      = some ("x", ⟨["null", "string"], none, none⟩, ⟨false, none, "x"⟩) :=
  ⟨rfl, rfl⟩

/-! ### Claim C5: the Selection Resolver contract -/

/-- A cons cell whose head does not satisfy the predicate contributes
nothing to a bounded existential. -/
theorem exists_mem_cons_skip {α : Type} {p : α → Prop} {a : α} {l : List α} (h : ¬p a) :
    (∃ x ∈ a :: l, p x) ↔ ∃ x ∈ l, p x := by
  constructor
  · rintro ⟨x, hx, hpx⟩
    rcases List.mem_cons.mp hx with rfl | hx2
    · exact absurd hpx h
    · exact ⟨x, hx2, hpx⟩
  · rintro ⟨x, hx, hpx⟩
    exact ⟨x, List.mem_cons_of_mem _ hx, hpx⟩

/-- Characterization of the `_find_selected_columns` loop relative to an
arbitrary accumulator: a column is present in the final `selected_cols`
iff it was already in the accumulator or some remaining metadata entry
writes it, and every value written comes either from the accumulator or
verbatim from the schema properties. -/
theorem findSelAux_chars (props : List (String × SchemaCol)) :
    ∀ (md : List MetaEntry) (acc res : List (String × SchemaCol) × List String),
      findSelAux props md acc = some res →
      ∀ col : String,
        ((dictGet col res.1).isSome ↔ ((dictGet col acc.1).isSome ∨ ∃ m ∈ md, selCand m col))
        ∧ ∀ sch, dictGet col res.1 = some sch →
            dictGet col acc.1 = some sch ∨ dictGet col props = some sch := by
  intro md
  induction md with
  | nil =>
    intro acc res h col
    simp only [findSelAux, Option.some.injEq] at h
    subst h
    exact ⟨by simp, fun sch hs2 => Or.inl hs2⟩
  | cons m rest ih =>
    intro acc res h col
    by_cases hp : "properties" ∈ m.breadcrumb
    · by_cases hs : m.selected = some true
      · cases haf : m.airtableField with
        | none =>
          simp only [findSelAux, if_pos hp, if_pos hs, haf] at h
          have H := ih acc res h col
          have hnc : ¬selCand m col := by
            rintro ⟨⟨-, -, hsome⟩, -⟩
            rw [haf] at hsome
            simp at hsome
          refine ⟨?_, H.2⟩
          rw [H.1, exists_mem_cons_skip (p := fun x => selCand x col) hnc]
        | some f =>
          cases hbc : m.breadcrumb.get? 1 with
          | none =>
            simp only [findSelAux, if_pos hp, if_pos hs, haf, hbc] at h
            exact Option.noConfusion h
          | some col0 =>
            cases hdg : dictGet col0 props with
            | none =>
              simp only [findSelAux, if_pos hp, if_pos hs, haf, hbc, hdg] at h
              exact Option.noConfusion h
            | some sch0 =>
              simp only [findSelAux, if_pos hp, if_pos hs, haf, hbc, hdg] at h
              have H := ih (dictSet col0 sch0 acc.1, acc.2 ++ [f]) res h col
              simp only [dictGet_dictSet] at H
              by_cases hcol : col0 = col
              · subst hcol
                rw [if_pos rfl] at H
                have hc : selCand m col0 := ⟨⟨hp, hs, by rw [haf]; rfl⟩, hbc⟩
                constructor
                · refine iff_of_true ?_ (Or.inr ⟨m, List.mem_cons_self m rest, hc⟩)
                  rw [H.1]
                  exact Or.inl rfl
                · intro sch hsch
                  rcases H.2 sch hsch with h1 | h2
                  · right
                    rw [hdg]
                    exact h1
                  · exact Or.inr h2
              · rw [if_neg hcol] at H
                have hnc : ¬selCand m col := by
                  rintro ⟨-, hbc2⟩
                  rw [hbc] at hbc2
                  exact hcol (Option.some.inj hbc2)
                refine ⟨?_, H.2⟩
                rw [H.1, exists_mem_cons_skip (p := fun x => selCand x col) hnc]
      · simp only [findSelAux, if_pos hp, if_neg hs] at h
        have H := ih acc res h col
        have hnc : ¬selCand m col := by rintro ⟨⟨-, hsel, -⟩, -⟩; exact hs hsel
        refine ⟨?_, H.2⟩
        rw [H.1, exists_mem_cons_skip (p := fun x => selCand x col) hnc]
    · simp only [findSelAux, if_neg hp] at h
      have H := ih acc res h col
      have hnc : ¬selCand m col := by rintro ⟨⟨hp2, -, -⟩, -⟩; exact hp hp2
      refine ⟨?_, H.2⟩
      rw [H.1, exists_mem_cons_skip (p := fun x => selCand x col) hnc]

/-- Metadata entries that fail the inclusion test are skipped without
changing the state and without raising. -/
theorem findSelAux_no_candidate (props : List (String × SchemaCol)) :
    ∀ (md : List MetaEntry) (acc : List (String × SchemaCol) × List String),
      (∀ m ∈ md, ¬selCandidate m) → findSelAux props md acc = some acc := by
  intro md
  induction md with
  | nil => intro acc _; rfl
  | cons m rest ih =>
    intro acc h
    have hm := h m (List.mem_cons_self m rest)
    have hrest : ∀ x ∈ rest, ¬selCandidate x := fun x hx => h x (List.mem_cons_of_mem _ hx)
    by_cases hp : "properties" ∈ m.breadcrumb
    · by_cases hs : m.selected = some true
      · cases haf : m.airtableField with
        | none =>
          simp only [findSelAux, if_pos hp, if_pos hs, haf]
          exact ih acc hrest
        | some f => exact absurd ⟨hp, hs, by rw [haf]; rfl⟩ hm
      · simp only [findSelAux, if_pos hp, if_neg hs]
        exact ih acc hrest
    · simp only [findSelAux, if_neg hp]
      exact ih acc hrest

/-- Claim C5: the Selection Resolver includes a column in its output
mapping iff some metadata entry for that column is marked selected
(truthy) and records an `airtable_field`; the included schema fragment
is exactly the one declared in the catalog's schema properties; and
entries lacking the selected flag or the field name are skipped without
raising an error. -/
theorem c5_selection_resolver :
    (∀ (props : List (String × SchemaCol)) (md : List MetaEntry)
        (res : List (String × SchemaCol) × List String),
      findSelectedColumns props md = some res →
      ∀ col : String,
        ((dictGet col res.1).isSome ↔ ∃ m ∈ md, selCand m col)
        ∧ ∀ sch, dictGet col res.1 = some sch → dictGet col props = some sch)
    ∧ ∀ (props : List (String × SchemaCol)) (md : List MetaEntry),
        (∀ m ∈ md, ¬selCandidate m) → findSelectedColumns props md = some ([], []) := by
  constructor
  · intro props md res h col
    have H := findSelAux_chars props md ([], []) res h col
    constructor
    · rw [H.1]
      simp
    · intro sch hsch
      rcases H.2 sch hsch with h1 | h2
      · simp at h1
      · exact h2
  · intro props md h
    exact findSelAux_no_candidate props md ([], []) h

/-- The plain-text column schema (`column_schema` of a field with no
number or date tag). -/
def strSchema : SchemaCol := ⟨["null", "string"], none, none⟩

/-- A one-column schema-properties dict for the witnesses. -/
def props1 : List (String × SchemaCol) := [("a", strSchema)]

/-- Metadata marking column `a` selected with source field `fa`. -/
def md1 : List MetaEntry := [⟨["properties", "a"], some true, some "fa"⟩]

/-- Witness for C5: on a catalog with one selected column the resolver
returns it, and the characterization applies. -/
theorem c5_selection_resolver_witness :
    ((dictGet "a" ([("a", strSchema)] : List (String × SchemaCol))).isSome
      ↔ ∃ m ∈ md1, selCand m "a")
    ∧ findSelectedColumns props1 md1 = some ([("a", strSchema)], ["fa"]) :=
  ⟨(c5_selection_resolver.1 props1 md1 ([("a", strSchema)], ["fa"]) rfl "a").1, rfl⟩

/-! ### Claims about `_map_records`: C3, C7, C8, C10 -/

/-- The output name recorded by `processField` is the derived field
name. -/
theorem processField_name (f : FieldDef) (n : String) (sch : SchemaCol) (cm : ColMeta)
    (h : processField f = some (n, sch, cm)) : deriveFieldName f.name = some n := by
  obtain ⟨nm, config⟩ := f
  cases hdn : deriveFieldName nm with
  | none =>
    simp only [processField, hdn] at h
    exact Option.noConfusion h
  | some fn =>
    cases config with
    | none =>
      simp only [processField, hdn] at h
      exact Option.noConfusion h
    | some cfg =>
      obtain ⟨t⟩ := cfg
      cases t with
      | none =>
        simp only [processField, hdn] at h
        exact Option.noConfusion h
      | some v =>
        simp only [processField, hdn, Option.some.injEq, Prod.mk.injEq] at h
        rw [h.1]

/-- The field loop of `discover_base` never touches the `id` entry of
`schema_cols` as long as no field's derived name is `id`. -/
theorem buildSchemaCols_id (fields : List FieldDef) :
    ∀ (acc cols : List (String × SchemaCol)),
      buildSchemaCols fields acc = some cols →
      (∀ f ∈ fields, deriveFieldName f.name ≠ some "id") →
      dictGet "id" cols = dictGet "id" acc := by
  induction fields with
  | nil =>
    intro acc cols h _
    simp only [buildSchemaCols, Option.some.injEq] at h
    rw [h]
  | cons f rest ih =>
    intro acc cols h hid
    cases hpf : processField f with
    | none => simp only [buildSchemaCols, hpf] at h; exact Option.noConfusion h
    | some out =>
      obtain ⟨n, sch, cm⟩ := out
      simp only [buildSchemaCols, hpf] at h
      have hn : n ≠ "id" := by
        intro hn
        exact hid f (List.mem_cons_self f rest) (hn ▸ processField_name f n sch cm hpf)
      rw [ih (dictSet n sch acc) cols h
            (fun g hg => hid g (List.mem_cons_of_mem _ hg)),
          dictGet_dictSet, if_neg hn]

/-- Claim C3: the Catalog Builder's schema for every table (whose fields
do not collide with the name `id`) contains the `id` column with the
string schema it was seeded with, and the Record Mapper sets the output
`id` to the raw record's id verbatim on every record it maps, whatever
the metadata's selections say. -/
theorem c3_id_column :
    (∀ (fields : List FieldDef) (cols : List (String × SchemaCol)),
      discoverTableSchema fields = some cols →
      (∀ f ∈ fields, deriveFieldName f.name ≠ some "id") →
      dictGet "id" cols = some idSchema)
    ∧ ∀ (schema : List (String × SchemaCol)) (md : List MetaEntry) (r : RawRecord)
        (row : List (String × JValue)),
      mapRow schema md r = some row → dictGet "id" row = some (JValue.str r.id) := by
  constructor
  · intro fields cols h hid
    rw [buildSchemaCols_id fields [("id", idSchema)] cols h hid]
    simp
  · intro schema md r row h
    unfold mapRow at h
    cases haux : mapRowAux md r schema [] with
    | none => rw [haux] at h; exact Option.noConfusion h
    | some row0 =>
      rw [haux] at h
      simp only [Option.map_some', Option.some.injEq] at h
      subst h
      rw [dictGet_dictSet, if_pos rfl]

/-- A one-field table used by the witnesses. -/
def fieldsW : List FieldDef := [⟨"Amount", some ⟨some (some "number")⟩⟩]

/-- The `number` column schema. -/
def numSchema : SchemaCol := ⟨["null", "number"], none, none⟩

/-- A two-column declared schema (`id` plus an unselected text column
`x`) used by the witnesses and the C7 counterexample. -/
def schemaX : List (String × SchemaCol) := [("id", idSchema), ("x", strSchema)]

/-- Metadata for `schemaX`: column `x` is explicitly not selected but
carries its source field name. -/
def mdX : List MetaEntry := [⟨["properties", "x"], some false, some "x"⟩]

/-- A raw record with id `r1` and no fields. -/
def recX : RawRecord := ⟨"r1", []⟩

/-- The row the mapper produces for `recX` under `schemaX` / `mdX`. -/
def rowX : List (String × JValue) := [("id", JValue.str "r1"), ("x", JValue.null)]

/-- Witness for C3: both halves applied to concrete inputs. -/
theorem c3_id_column_witness :
    dictGet "id" [("id", idSchema), ("Amount", numSchema)] = some idSchema
    ∧ dictGet "id" rowX = some (JValue.str "r1") :=
  ⟨c3_id_column.1 fieldsW [("id", idSchema), ("Amount", numSchema)] rfl (by decide),
   c3_id_column.2 schemaX mdX recX rowX rfl⟩

/-- Key-set invariant of the `for col in schema` loop: the built row
has exactly the keys of the accumulator plus the schema's columns. -/
theorem mapRowAux_keys (md : List MetaEntry) (r : RawRecord) :
    ∀ (schema : List (String × SchemaCol)) (acc row : List (String × JValue)),
      mapRowAux md r schema acc = some row →
      ∀ col : String,
        (dictGet col row).isSome ↔ ((dictGet col acc).isSome ∨ col ∈ schema.map Prod.fst) := by
  intro schema
  induction schema with
  | nil =>
    intro acc row h col
    simp only [mapRowAux, Option.some.injEq] at h
    subst h
    simp
  | cons p rest ih =>
    obtain ⟨col0, cd⟩ := p
    intro acc row h col
    cases hrt : cd.type.get? 1 with
    | none => simp only [mapRowAux, hrt] at h; exact Option.noConfusion h
    | some rt =>
      cases hmc : mapColumnValue md r col0 rt with
      | none => simp only [mapRowAux, hrt, hmc] at h; exact Option.noConfusion h
      | some val =>
        simp only [mapRowAux, hrt, hmc] at h
        rw [ih (dictSet col0 val acc) row h col]
        simp only [dictGet_dictSet, List.map_cons, List.mem_cons]
        by_cases hcol : col0 = col
        · subst hcol; simp
        · simp [hcol, Ne.symm hcol]

/-- Claim C7 as amended: the keys of every output record are exactly the
columns of the declared schema plus the mandatory `id` column — every
schema column appears, selected or not. -/
theorem c7_output_keys (schema : List (String × SchemaCol)) (md : List MetaEntry)
    (r : RawRecord) (row : List (String × JValue))
    (h : mapRow schema md r = some row) (col : String) :
    (dictGet col row).isSome ↔ (col = "id" ∨ col ∈ schema.map Prod.fst) := by
  unfold mapRow at h
  cases haux : mapRowAux md r schema [] with
  | none => rw [haux] at h; exact Option.noConfusion h
  | some row0 =>
    rw [haux] at h
    simp only [Option.map_some', Option.some.injEq] at h
    subst h
    rw [dictGet_dictSet]
    by_cases hcol : "id" = col
    · refine iff_of_true ?_ (Or.inl hcol.symm)
      rw [if_pos hcol]
      rfl
    · rw [if_neg hcol, mapRowAux_keys md r schema [] row0 haux col]
      simp [Ne.symm hcol]

/-- Counterexample to claim C7 as stated: under `schemaX`/`mdX` the
column `x` is not selected (the Selection Resolver returns no columns),
yet the mapped record for `recX` still contains the key `x` — the
mapper iterates over the whole declared schema, not over the selected
columns. -/
theorem c7_counterexample :
    mapRow schemaX mdX recX = some rowX
    ∧ findSelectedColumns schemaX mdX = some ([], [])
    ∧ (dictGet "x" rowX).isSome = true :=
  ⟨rfl, rfl, rfl⟩

/-- Witness for C7 (amended) at the concrete row. -/
theorem c7_output_keys_witness :
    (dictGet "x" rowX).isSome ↔ ("x" = "id" ∨ "x" ∈ schemaX.map Prod.fst) :=
  c7_output_keys schemaX mdX recX rowX rfl "x"

/-- Claim C8: for every schema column whose raw value is absent from the
record's fields or explicitly `null`, the mapper's per-column value is
`null`, with no coercion applied, whatever the declared type. -/
theorem c8_null_passthrough (md : List MetaEntry) (r : RawRecord) (col : String)
    (requested_type : String) (fc : Option String)
    (hfc : findColumn col md = some fc)
    (habs : dictGet (pyOr fc col) r.fields = none
            ∨ dictGet (pyOr fc col) r.fields = some JValue.null) :
    mapColumnValue md r col requested_type = some JValue.null := by
  unfold mapColumnValue
  rw [hfc]
  rcases habs with h | h <;> simp [h, JValue.isNull]

/-- Witness for C8: column `x` of `recX` (no fields at all) maps to
`null` under declared type `string`. -/
theorem c8_null_passthrough_witness :
    mapColumnValue mdX recX "x" "string" = some JValue.null :=
  c8_null_passthrough mdX recX "x" "string" (some "x") rfl (Or.inl rfl)

/-- Claim C10: when the per-column metadata lookup finds no
`airtable_field` (it returns Python `None`), the mapper falls back to
the output column name itself as the key into the record's fields. -/
theorem c10_fallback_name (md : List MetaEntry) (r : RawRecord) (col : String)
    (requested_type : String) (hfc : findColumn col md = some none) :
    mapColumnValue md r col requested_type =
      some (let val := (dictGet col r.fields).getD JValue.null
            if val.isNull then val else castType val requested_type) := by
  unfold mapColumnValue
  rw [hfc]
  rfl

/-- Witness for C10: with no metadata at all, the value for column `y`
is read from the record's own `y` field. -/
theorem c10_fallback_name_witness :
    mapColumnValue [] ⟨"r2", [("y", JValue.str "v")]⟩ "y" "string" = some (JValue.str "v") :=
  c10_fallback_name [] ⟨"r2", [("y", JValue.str "v")]⟩ "y" "string" rfl

/-! ### Claim C6: pagination on empty mid-stream pages -/

/-- When every non-initial page is empty, each iteration of the
`while offset:` loop re-requests the same (unchanged, still truthy)
token: the loop consumes all its fuel, writes nothing, and issues one
request per unit of fuel. -/
theorem syncWhile_empty_pages (resp : Nat → Page)
    (hempty : ∀ n : Nat, n ≠ 0 → (resp n).records = []) :
    ∀ (fuel counter : Nat) (offset : Option String) (emitted : List (List RawRecord))
      (reqs : Nat), pyTruthyStr offset = true →
      syncWhile resp fuel counter offset emitted reqs = ⟨false, emitted, reqs + fuel⟩ := by
  intro fuel
  induction fuel with
  | zero => intro counter offset emitted reqs _; rfl
  | succ fuel ih =>
    intro counter offset emitted reqs htr
    have hrec : (resp (counter + 1)).records = [] :=
      hempty (counter + 1) (Nat.succ_ne_zero counter)
    have hstep : syncWhile resp (fuel + 1) counter offset emitted reqs
        = syncWhile resp fuel (counter + 1) offset emitted (reqs + 1) := by
      simp only [syncWhile, htr, hrec, List.isEmpty_nil, if_true]
    rw [hstep, ih (counter + 1) offset emitted (reqs + 1) htr]
    have harith : reqs + 1 + fuel = reqs + (fuel + 1) := by omega
    rw [harith]

/-- The record of the C6 scenario's first page. -/
def recY : RawRecord := ⟨"rY", []⟩

/-- A response sequence whose first page has one record and a
continuation token, and whose every later page is empty but still
carries a token. -/
def respBad : Nat → Page :=
  fun n => if n = 0 then ⟨[recY], some "t0"⟩ else ⟨[], some "t1"⟩

/-- Counterexample to claim C6 as stated: on `respBad` — a response
sequence whose second and later pages are empty — the sync driver does
not terminate on any fuel budget, and it keeps issuing further page
requests after the empty page (4 requests within fuel 3), because the
loop body only reassigns `offset` when a page has records. -/
theorem c6_counterexample :
    ¬SyncTerminates respBad ∧ (runSyncStream respBad 3).requests = 4 := by
  constructor
  · rintro ⟨fuel, hfin⟩
    have hempty : ∀ n : Nat, n ≠ 0 → (respBad n).records = [] := by
      intro n hn
      simp [respBad, hn]
    have hrun : runSyncStream respBad fuel
        = syncWhile respBad fuel 0 (some "t0") [[recY]] 1 := rfl
    rw [hrun, syncWhile_empty_pages respBad hempty fuel 0 (some "t0") [[recY]] 1 rfl] at hfin
    exact Bool.noConfusion hfin
  · rfl

/-- Claim C6 as amended: when the first page has records and a truthy
token and every later page returns zero records, the driver stops
emitting (only the first page's batch is ever written) and stops
advancing the token, but keeps re-issuing requests — one per unit of
fuel, never finishing. -/
theorem c6_empty_page_loops (resp : Nat → Page)
    (h0 : (resp 0).records ≠ [])
    (htr : pyTruthyStr (resp 0).offset = true)
    (hempty : ∀ n : Nat, n ≠ 0 → (resp n).records = []) (fuel : Nat) :
    (runSyncStream resp fuel).finished = false
    ∧ (runSyncStream resp fuel).emitted = [(resp 0).records]
    ∧ (runSyncStream resp fuel).requests = fuel + 1 := by
  have hne : (resp 0).records.isEmpty = false := by
    cases hh : (resp 0).records with
    | nil => exact absurd hh h0
    | cons a l => rfl
  simp only [runSyncStream, hne, Bool.false_eq_true, if_false]
  rw [syncWhile_empty_pages resp hempty fuel 0 (resp 0).offset [(resp 0).records] 1 htr]
  refine ⟨rfl, rfl, ?_⟩
  show 1 + fuel = fuel + 1
  omega

/-- Witness for C6 (amended), on `respBad` with fuel 2. -/
theorem c6_empty_page_loops_witness :
    (runSyncStream respBad 2).finished = false
    ∧ (runSyncStream respBad 2).emitted = [[recY]]
    ∧ (runSyncStream respBad 2).requests = 3 :=
  c6_empty_page_loops respBad (by simp [respBad]) rfl
    (fun n hn => by simp [respBad, hn]) 2

end TapAirtable
